import Mathlib

/-!
Verification of the PyFlow code-to-flowchart compiler
(`backend/app/services/flowchart_generator.py` and the HTTP boundary in
`backend/app/api/routes/flowchart.py`).

The embedding models the Python AST fragment that `FlowchartGenerator`
inspects, the mutable builder state (`node_id`, `nodes`, `edges`,
`variables_used`, `functions_defined`), the statement visitor
`process_statement`, the complexity estimator `_analyze_code_complexity`,
the Mermaid serializer `generate_mermaid`, the driver `generate_from_code`,
and the exception-to-HTTP mapping of the `/generate-flowchart` route.
-/

namespace PyFlow

/-- An assignment target as the visitor distinguishes it:
`ast.Name` targets carry a simple identifier; anything else
(attribute, subscript, tuple, …) is skipped by the
`isinstance(target, ast.Name)` filter. -/
inductive Target where
  | name (id : String)
  | other
deriving DecidableEq, Repr

/-- The statement-level Python AST fragment consumed by
`FlowchartGenerator.process_statement`. Condition / iterable texts are the
strings `ast.unparse` would render; statement kinds the visitor does not
specially handle collapse to `generic` carrying `type(stmt).__name__`, an
optional line number, and the statements nested anywhere inside them
(`Try`/`With`/`ClassDef` bodies, handlers, …), which the visitor ignores
but `ast.walk` still descends into. Likewise `for`/`while` keep their
`orelse` block: the visitor never reads it, but `ast.walk` traverses it. -/
inductive Stmt where
  | assign (targets : List Target) (lineno : Nat)
  | ifStmt (test : String) (body : List Stmt) (orelse : List Stmt) (lineno : Nat)
  | forStmt (target : Option String) (iter : String) (body : List Stmt) (orelse : List Stmt) (lineno : Nat)
  | whileStmt (test : String) (body : List Stmt) (orelse : List Stmt) (lineno : Nat)
  | functionDef (fname : String) (args : List String) (body : List Stmt) (lineno : Nat)
  | ret (lineno : Nat)
  | exprCall (func : Option String) (lineno : Nat)
  | generic (typeName : String) (lineno : Option Nat) (nested : List Stmt)

/-- A flowchart node as stored in `self.nodes[node_id]`:
`{"id": .., "label": .., "type": .., "line": ..}`. -/
structure Node where
  id : String
  label : String
  type : String
  line : Option Nat
deriving DecidableEq, Repr

/-- An edge as stored in `self.edges`: `{"from": .., "to": .., "label": ..}`. -/
structure Edge where
  fromNode : String
  toNode : String
  label : String
deriving DecidableEq, Repr

/-- One entry of `self.functions_defined`. -/
structure FuncInfo where
  name : String
  args : List String
  line : Nat
deriving DecidableEq, Repr

/-- The mutable builder state of a `FlowchartGenerator` instance.
`nodes` keeps dict insertion order as an association list. -/
structure GenState where
  node_id : Nat
  nodes : List (String × Node)
  edges : List Edge
  variables_used : List String
  functions_defined : List FuncInfo
deriving DecidableEq, Repr

/-- The state `reset()` establishes (fresh counters, empty collections). -/
def initState : GenState :=
  { node_id := 0, nodes := [], edges := [], variables_used := [], functions_defined := [] }

/-- `f"node{self.node_id}"`. -/
def nodeName (k : Nat) : String := "node" ++ toString k

/-- `create_node(label, node_type, line_no)`: allocate `node{n}`, bump the
counter, append the node to the mapping, return the id. -/
def create_node (s : GenState) (label : String) (node_type : String)
    (line_no : Option Nat) : String × GenState :=
  let nid := nodeName s.node_id
  (nid, { s with
            node_id := s.node_id + 1,
            nodes := s.nodes ++ [(nid, { id := nid, label := label, type := node_type, line := line_no })] })

/-- `add_edge(from_node, to_node, label="")`: append, no validation. -/
def add_edge (s : GenState) (from_node to_node : String) (label : String) : GenState :=
  { s with edges := s.edges ++ [{ fromNode := from_node, toNode := to_node, label := label }] }

/-- Add one name to the variables-used set (Python `set` membership,
modelled with insertion order made explicit). -/
def insertVar (vs : List String) (v : String) : List String :=
  if v ∈ vs then vs else vs ++ [v]

/-- `self.variables_used.update(targets)`. -/
def updateVars (vs : List String) (ts : List String) : List String :=
  ts.foldl insertVar vs

/-- The simple names among an assignment's targets:
`[target.id for target in stmt.targets if isinstance(target, ast.Name)]`. -/
def targetNames (ts : List Target) : List String :=
  ts.filterMap fun t => match t with
    | .name i => some i
    | .other => none

mutual

/-- `FlowchartGenerator.process_statement(stmt, current_node)`: translate one
statement into nodes/edges, returning the new current node. -/
def process_statement (stmt : Stmt) (current_node : String) (s : GenState) :
    String × GenState :=
  match stmt with
  | .assign targets ln =>
      let names := targetNames targets
      let s1 := { s with variables_used := updateVars s.variables_used names }
      let label := "Assign: " ++ String.intercalate ", " names
      let c := create_node s1 label "process" (some ln)
      (c.1, add_edge c.2 current_node c.1 "")
  | .ifStmt test body orelse ln =>
      let d := create_node s ("If " ++ test ++ "?") "decision" (some ln)
      let s1 := add_edge d.2 current_node d.1 ""
      let pi := process_body body d.1 s1
      let pe := process_body orelse d.1 pi.2
      let m := create_node pe.2 "Merge" "process" none
      let s2 := add_edge m.2 pi.1 m.1 "Yes"
      let s3 := add_edge s2 pe.1 m.1 (if orelse.isEmpty then "" else "No")
      (m.1, s3)
  | .forStmt target iter body _orelse ln =>
      let c := create_node s ("For " ++ target.getD "item" ++ " in " ++ iter) "decision" (some ln)
      let s1 := add_edge c.2 current_node c.1 ""
      let pb := process_body body c.1 s1
      (c.1, add_edge pb.2 pb.1 c.1 "Continue")
  | .whileStmt test body _orelse ln =>
      let c := create_node s ("While " ++ test ++ "?") "decision" (some ln)
      let s1 := add_edge c.2 current_node c.1 ""
      let pb := process_body body c.1 s1
      (c.1, add_edge pb.2 pb.1 c.1 "Continue")
  | .functionDef fname args _body ln =>
      let s1 := { s with
                    functions_defined := s.functions_defined ++ [{ name := fname, args := args, line := ln }] }
      let c := create_node s1 ("Function: " ++ fname) "process" (some ln)
      (c.1, add_edge c.2 current_node c.1 "")
  | .ret ln =>
      let c := create_node s "Return" "process" (some ln)
      (c.1, add_edge c.2 current_node c.1 "")
  | .exprCall func ln =>
      let c := create_node s ("Call: " ++ func.getD "function" ++ "()") "process" (some ln)
      (c.1, add_edge c.2 current_node c.1 "")
  | .generic typeName ln _nested =>
      let c := create_node s ("Statement: " ++ typeName) "process" ln
      (c.1, add_edge c.2 current_node c.1 "")

/-- The `for .. in body: current = self.process_statement(.., current)` fold
the driver and every nested block use. -/
def process_body (body : List Stmt) (current_node : String) (s : GenState) :
    String × GenState :=
  match body with
  | [] => (current_node, s)
  | st :: rest =>
      let p := process_statement st current_node s
      process_body rest p.1 p.2

end

mutual

/-- The weighted tally of `_analyze_code_complexity` restricted to one
statement subtree: `ast.walk` visits every nested node — including the
`orelse` block of a loop and the statements inside constructs the visitor
collapses to `generic` — adding 1 per `ast.For` / `ast.While` and 0.5 per
`ast.If`. -/
def stmtComplexity : Stmt → ℚ
  | .assign _ _ => 0
  | .ifStmt _ body orelse _ => 1/2 + bodyComplexity body + bodyComplexity orelse
  | .forStmt _ _ body orelse _ => 1 + bodyComplexity body + bodyComplexity orelse
  | .whileStmt _ body orelse _ => 1 + bodyComplexity body + bodyComplexity orelse
  | .functionDef _ _ body _ => bodyComplexity body
  | .ret _ => 0
  | .exprCall _ _ => 0
  | .generic _ _ nested => bodyComplexity nested

/-- Complexity score of a statement sequence (the module body). -/
def bodyComplexity : List Stmt → ℚ
  | [] => 0
  | st :: rest => stmtComplexity st + bodyComplexity rest

end

/-- The bucketing at the end of `_analyze_code_complexity`. -/
def complexityLabel (score : ℚ) : String :=
  if score = 0 then "O(1)"
  else if score ≤ 1 then "O(n)"
  else if score ≤ 2 then "O(n²)"
  else "O(n³+)"

/-- One node definition line of `generate_mermaid` (shape keyed by type). -/
def nodeLine (kv : String × Node) : String :=
  let node_id := kv.1
  let nd := kv.2
  if nd.type = "start" then "    " ++ node_id ++ "([" ++ nd.label ++ "])"
  else if nd.type = "end" then "    " ++ node_id ++ "([" ++ nd.label ++ "])"
  else if nd.type = "decision" then "    " ++ node_id ++ "\x7b" ++ nd.label ++ "\x7d"
  else "    " ++ node_id ++ "[" ++ nd.label ++ "]"

/-- One edge line of `generate_mermaid` (`if edge["label"]:` is Python
truthiness, i.e. non-empty string). -/
def edgeLine (e : Edge) : String :=
  if e.label ≠ "" then "    " ++ e.fromNode ++ " -->|" ++ e.label ++ "| " ++ e.toNode
  else "    " ++ e.fromNode ++ " --> " ++ e.toNode

/-- `generate_mermaid()`: header, node lines in dict insertion order, edge
lines in append order, joined by newlines. -/
def generate_mermaid (s : GenState) : String :=
  String.intercalate "\n" ("flowchart TD" :: (s.nodes.map nodeLine ++ s.edges.map edgeLine))

/-- The graph-building portion of `generate_from_code` on a successfully
parsed module body: reset, create START, fold the visitor over the
top-level statements, create END and edge into it. -/
def runPipeline (body : List Stmt) : GenState :=
  let st := create_node initState "START" "start" none
  let p := process_body body st.1 st.2
  let en := create_node p.2 "END" "end" none
  add_edge en.2 p.1 en.1 ""

/-- Python exception classes the flowchart route distinguishes:
`SyntaxError` versus any other `Exception`. -/
inductive PyError where
  | pySyntaxError (msg : String)
  | genericError (msg : String)
deriving DecidableEq, Repr

/-- What `generate_from_code` returns besides the Mermaid text
(the `analysis_data` dict, timing metrics omitted). -/
structure AnalysisData where
  nodes : List (String × Node)
  complexity : String
  variablesList : List String
  functions : List FuncInfo
deriving DecidableEq, Repr

/-- `FlowchartGenerator.generate_from_code(code)`. Its input is the result
of the external `ast.parse`: either a module body or a `SyntaxError`
message. The `try`/`except Exception` wrapper re-raises every failure —
including the parse failure — as a plain
`Exception(f"Failed to generate flowchart: {str(e)}")`. -/
def generate_from_code (parsed : Except String (List Stmt)) :
    Except PyError (String × AnalysisData) :=
  match parsed with
  | .error msg => .error (.genericError ("Failed to generate flowchart: " ++ msg))
  | .ok body =>
      let s := runPipeline body
      .ok (generate_mermaid s,
           { nodes := s.nodes,
             complexity := complexityLabel (bodyComplexity body),
             variablesList := s.variables_used,
             functions := s.functions_defined })

/-- An HTTP error response raised by the route (`HTTPException`). -/
structure HTTPError where
  status_code : Nat
  detail : String
deriving DecidableEq, Repr

/-- The `/generate-flowchart` route handler: run the generator; map a
`SyntaxError` to 400 and any other exception to 500. -/
def generate_flowchart (parsed : Except String (List Stmt)) :
    Except HTTPError (String × AnalysisData) :=
  match generate_from_code parsed with
  | .ok result => .ok result
  | .error (.pySyntaxError msg) =>
      .error { status_code := 400, detail := "Syntax error in Python code: " ++ msg }
  | .error (.genericError msg) =>
      .error { status_code := 500, detail := "Error generating flowchart: " ++ msg }

/-! ## Graph-level notions used by the verified properties -/

/-- The ids present in the node mapping (dict key view of `self.nodes`). -/
def keys (s : GenState) : List String := s.nodes.map Prod.fst

/-- Number of nodes of a given kind in the mapping. -/
def countType (s : GenState) (t : String) : Nat :=
  s.nodes.countP fun kv => kv.2.type = t

/-- An edge that goes strictly forward in node-creation order, both
endpoints being ids the counter has already allocated. -/
def Fwd (bound : Nat) (e : Edge) : Prop :=
  ∃ a b, a < b ∧ b < bound ∧ e.fromNode = nodeName a ∧ e.toNode = nodeName b

/-- A loop back-edge: labeled "Continue" with a decision node as target. -/
def ContinueBack (s : GenState) (e : Edge) : Prop :=
  e.label = "Continue" ∧ ∃ nd, (e.toNode, nd) ∈ s.nodes ∧ nd.type = "decision"

/-- All edges are forward in creation order except loop back-edges: any
cycle must therefore traverse a "Continue" back-edge. -/
def EdgesFwd (s : GenState) : Prop :=
  ∀ e ∈ s.edges, Fwd s.node_id e ∨ ContinueBack s e

/-- Reachability along the edge list (a directed walk). -/
inductive Reaches (E : List Edge) : String → String → Prop where
  | refl (x : String) : Reaches E x x
  | tail {x y z : String} : Reaches E x y →
      (∃ e ∈ E, e.fromNode = y ∧ e.toNode = z) → Reaches E x z

/-- Everything one visitor step (`process_statement` on one statement, or
the fold over a block) guarantees, relating the pre-state `s`, the current
node `cur`, and the result `r = (returned node, post-state)`:
nodes and edges are append-only, fresh nodes are process/decision nodes
with an incoming edge, the returned node is the old current node or a
fresh one, fresh edges connect existing nodes, the returned node is
reachable from `cur`, and all fresh non-"Continue" edges point forward in
creation order. -/
structure StepInv (cur : String) (s : GenState) (r : String × GenState) : Prop where
  nodes_app : ∃ ln, r.2.nodes = s.nodes ++ ln ∧
      (∀ kv ∈ ln, (kv.2.type = "process" ∨ kv.2.type = "decision") ∧
        ∃ e ∈ r.2.edges, e.toNode = kv.1) ∧
      (r.1 = cur ∨ r.1 ∈ ln.map Prod.fst)
  edges_app : ∃ le, r.2.edges = s.edges ++ le ∧
      (cur ∈ keys s → ∀ e ∈ le, e.fromNode ∈ keys r.2 ∧ e.toNode ∈ keys r.2)
  id_mono : s.node_id ≤ r.2.node_id
  reach : Reaches r.2.edges cur r.1
  fwd : ∀ c, cur = nodeName c → c < s.node_id → EdgesFwd s →
      EdgesFwd r.2 ∧ ∃ rr, r.1 = nodeName rr ∧ rr < r.2.node_id

/-! ## Spec-side counters for the complexity estimator -/

mutual

/-- Loops (`for` / `while`) in one statement subtree, as the spec counts
them ("each loop contributes 1.0"). -/
def stmtLoops : Stmt → Nat
  | .ifStmt _ body orelse _ => bodyLoops body + bodyLoops orelse
  | .forStmt _ _ body orelse _ => 1 + bodyLoops body + bodyLoops orelse
  | .whileStmt _ body orelse _ => 1 + bodyLoops body + bodyLoops orelse
  | .functionDef _ _ body _ => bodyLoops body
  | .generic _ _ nested => bodyLoops nested
  | _ => 0

/-- Loops in a statement sequence. -/
def bodyLoops : List Stmt → Nat
  | [] => 0
  | st :: rest => stmtLoops st + bodyLoops rest

end

mutual

/-- Conditionals in one statement subtree ("each conditional contributes
0.5"). -/
def stmtIfs : Stmt → Nat
  | .ifStmt _ body orelse _ => 1 + bodyIfs body + bodyIfs orelse
  | .forStmt _ _ body orelse _ => bodyIfs body + bodyIfs orelse
  | .whileStmt _ body orelse _ => bodyIfs body + bodyIfs orelse
  | .functionDef _ _ body _ => bodyIfs body
  | .generic _ _ nested => bodyIfs nested
  | _ => 0

/-- Conditionals in a statement sequence. -/
def bodyIfs : List Stmt → Nat
  | [] => 0
  | st :: rest => stmtIfs st + bodyIfs rest

end

/-- The spec's §8 example input `if x > 0: y = 1` (no else branch). -/
def exampleIfNoElse : List Stmt :=
  [Stmt.ifStmt "x > 0" [Stmt.assign [Target.name "y"] 1] [] 1]

end PyFlow

namespace PyFlow

theorem Reaches.monotone {E E' : List Edge} (h : ∀ e ∈ E, e ∈ E') {x y : String}
    (r : Reaches E x y) : Reaches E' x y := by
  induction r with
  | refl => exact .refl _
  | tail _ hstep ih =>
      obtain ⟨e, he, hf, ht⟩ := hstep
      exact .tail ih ⟨e, h e he, hf, ht⟩

theorem Reaches.trans {E : List Edge} {x y z : String}
    (h1 : Reaches E x y) (h2 : Reaches E y z) : Reaches E x z := by
  induction h2 with
  | refl => exact h1
  | tail _ hstep ih => exact .tail ih hstep

theorem Fwd.monoBound {b b' : Nat} (h : b ≤ b') {e : Edge} : Fwd b e → Fwd b' e := by
  rintro ⟨a, c, h1, h2, h3, h4⟩
  exact ⟨a, c, h1, lt_of_lt_of_le h2 h, h3, h4⟩

theorem ContinueBack.monoNodes {s t : GenState}
    (h : ∀ kv ∈ s.nodes, kv ∈ t.nodes) {e : Edge} :
    ContinueBack s e → ContinueBack t e := by
  rintro ⟨hl, nd, hmem, hty⟩
  exact ⟨hl, nd, h _ hmem, hty⟩

theorem keys_mono {s t : GenState} (h : ∀ kv ∈ s.nodes, kv ∈ t.nodes) :
    ∀ k ∈ keys s, k ∈ keys t := by
  intro k hk
  simp only [keys, List.mem_map] at hk ⊢
  obtain ⟨kv, hkv, rfl⟩ := hk
  exact ⟨kv, h kv hkv, rfl⟩

theorem stepInv_id (cur : String) (s : GenState) : StepInv cur s (cur, s) := by
  refine ⟨⟨[], by simp, by simp, Or.inl rfl⟩, ⟨[], by simp, by simp⟩, le_refl _, .refl cur, ?_⟩
  intro c hc hlt hfwd
  exact ⟨hfwd, c, hc, hlt⟩

theorem stepInv_node_edge (cur : String) (s : GenState) (label ntype : String)
    (line : Option Nat) (hty : ntype = "process" ∨ ntype = "decision") :
    StepInv cur s
      ((create_node s label ntype line).1,
        add_edge (create_node s label ntype line).2 cur (create_node s label ntype line).1 "") := by
  constructor
  · refine ⟨[(nodeName s.node_id,
        { id := nodeName s.node_id, label := label, type := ntype, line := line })],
      by simp [create_node, add_edge], ?_, ?_⟩
    · intro kv hkv
      simp only [List.mem_singleton] at hkv
      subst hkv
      refine ⟨hty, ⟨{ fromNode := cur, toNode := nodeName s.node_id, label := "" }, ?_, rfl⟩⟩
      simp [create_node, add_edge]
    · right
      simp [create_node]
  · refine ⟨[{ fromNode := cur, toNode := nodeName s.node_id, label := "" }],
      by simp [create_node, add_edge], ?_⟩
    intro hcur e he
    simp only [List.mem_singleton] at he
    subst he
    refine ⟨?_, ?_⟩
    · exact keys_mono (by intro kv hkv; simp [create_node, add_edge]; exact Or.inl hkv) _ hcur
    · simp [keys, create_node, add_edge]
  · simp [create_node, add_edge]
  · exact .tail (.refl cur)
      ⟨{ fromNode := cur, toNode := nodeName s.node_id, label := "" },
        by simp [create_node, add_edge], rfl, rfl⟩
  · intro c hc hlt hfwd
    refine ⟨?_, s.node_id, rfl, by simp [create_node, add_edge]⟩
    intro e he
    simp only [create_node, add_edge, List.mem_append, List.mem_singleton] at he
    rcases he with he | he
    · rcases hfwd e he with h | h
      · exact Or.inl (h.monoBound (by simp [create_node, add_edge]))
      · exact Or.inr (h.monoNodes (by intro kv hkv; simp [create_node, add_edge]; exact Or.inl hkv))
    · subst he
      refine Or.inl ⟨c, s.node_id, hlt, by simp [create_node, add_edge], by rw [hc], rfl⟩

end PyFlow

namespace PyFlow

theorem StepInv.comp {cur m r : String} {s s1 s2 : GenState}
    (h1 : StepInv cur s (m, s1)) (h2 : StepInv m s1 (r, s2)) :
    StepInv cur s (r, s2) := by
  obtain ⟨ln1, hn1, hcov1, hret1⟩ := h1.nodes_app
  obtain ⟨le1, he1, hcl1⟩ := h1.edges_app
  obtain ⟨ln2, hn2, hcov2, hret2⟩ := h2.nodes_app
  obtain ⟨le2, he2, hcl2⟩ := h2.edges_app
  dsimp only at hn1 hcov1 hret1 he1 hcl1 hn2 hcov2 hret2 he2 hcl2
  have hnodes12 : ∀ kv ∈ s1.nodes, kv ∈ s2.nodes := by
    intro kv hkv
    simp only [hn2, List.mem_append]
    exact Or.inl hkv
  constructor
  · refine ⟨ln1 ++ ln2, by simp [hn2, hn1], ?_, ?_⟩
    · intro kv hkv
      rcases List.mem_append.mp hkv with h | h
      · obtain ⟨hty, e, hee, ht⟩ := hcov1 kv h
        refine ⟨hty, e, ?_, ht⟩
        simp only [he2, List.mem_append]
        exact Or.inl hee
      · exact hcov2 kv h
    · rcases hret2 with h | h
      · rcases hret1 with h' | h'
        · exact Or.inl (h.trans h')
        · refine Or.inr ?_
          rw [h]
          simp only [List.map_append, List.mem_append]
          exact Or.inl h'
      · refine Or.inr ?_
        simp only [List.map_append, List.mem_append]
        exact Or.inr h
  · refine ⟨le1 ++ le2, by simp [he2, he1], ?_⟩
    intro hcur e he
    rcases List.mem_append.mp he with h | h
    · obtain ⟨hf, ht⟩ := hcl1 hcur e h
      exact ⟨keys_mono hnodes12 _ hf, keys_mono hnodes12 _ ht⟩
    · have hm : m ∈ keys s1 := by
        rcases hret1 with h' | h'
        · rw [h']
          refine keys_mono ?_ _ hcur
          intro kv hkv
          simp only [hn1, List.mem_append]
          exact Or.inl hkv
        · simp only [keys, hn1, List.map_append, List.mem_append]
          exact Or.inr h'
      exact hcl2 hm e h
  · exact le_trans h1.id_mono h2.id_mono
  · refine Reaches.trans (h1.reach.monotone ?_) h2.reach
    intro e he
    simp only [he2, List.mem_append]
    exact Or.inl he
  · intro c hc hlt hfwd
    obtain ⟨hfwd1, m', hm', hlt'⟩ := h1.fwd c hc hlt hfwd
    exact h2.fwd m' hm' hlt' hfwd1

end PyFlow

namespace PyFlow

theorem StepInv.cast_vars {cur : String} {s : GenState} {vs : List String}
    {fs : List FuncInfo} {r : String × GenState}
    (h : StepInv cur { s with variables_used := vs, functions_defined := fs } r) :
    StepInv cur s r :=
  ⟨h.nodes_app, h.edges_app, h.id_mono, h.reach, h.fwd⟩

theorem stepInv_loop (cur : String) (s : GenState) (label : String) (line : Option Nat)
    (body : List Stmt)
    (hbody : ∀ (cur' : String) (s' : GenState), StepInv cur' s' (process_body body cur' s')) :
    StepInv cur s
      (let c := create_node s label "decision" line
       let s1 := add_edge c.2 cur c.1 ""
       let pb := process_body body c.1 s1
       (c.1, add_edge pb.2 pb.1 c.1 "Continue")) := by
  dsimp only
  have hd := stepInv_node_edge cur s label "decision" line (Or.inr rfl)
  set c := create_node s label "decision" line with hc
  set s1 := add_edge c.2 cur c.1 "" with hs1
  set pb := process_body body c.1 s1 with hpbd
  have hpb := hbody c.1 s1
  rw [← hpbd] at hpb
  obtain ⟨lnd, hn_d, hcov_d, hret_d⟩ := hd.nodes_app
  obtain ⟨led, he_d, hcl_d⟩ := hd.edges_app
  have id_d := hd.id_mono
  have reach_d := hd.reach
  have fwd_d := hd.fwd
  obtain ⟨ln2, hn2, hcov2, hret2⟩ := hpb.nodes_app
  obtain ⟨le2, he2, hcl2⟩ := hpb.edges_app
  have id_2 := hpb.id_mono
  have fwd_2 := hpb.fwd
  dsimp only at hn_d hcov_d hret_d he_d hcl_d id_d reach_d fwd_d hn2 hcov2 hret2 he2 hcl2 id_2 fwd_2
  have hkeys_s_s1 : ∀ k ∈ keys s, k ∈ keys s1 := by
    refine keys_mono ?_
    intro kv hkv
    rw [hn_d]
    exact List.mem_append.mpr (Or.inl hkv)
  have hkeys_s1_pb : ∀ k ∈ keys s1, k ∈ keys pb.2 := by
    refine keys_mono ?_
    intro kv hkv
    rw [hn2]
    exact List.mem_append.mpr (Or.inl hkv)
  have hc1 : c.1 ∈ keys s1 ∨ c.1 = cur := by
    rcases hret_d with h | h
    · exact Or.inr h
    · refine Or.inl ?_
      simp only [keys, hn_d, List.map_append, List.mem_append]
      exact Or.inr h
  constructor
  · refine ⟨lnd ++ ln2, ?_, ?_, ?_⟩
    · show pb.2.nodes = s.nodes ++ (lnd ++ ln2)
      rw [hn2, hn_d, List.append_assoc]
    · intro kv hkv
      rcases List.mem_append.mp hkv with h | h
      · obtain ⟨hty, e, hee, ht⟩ := hcov_d kv h
        refine ⟨hty, e, ?_, ht⟩
        show e ∈ (add_edge pb.2 pb.1 c.1 "Continue").edges
        simp only [add_edge, List.mem_append]
        exact Or.inl (he2 ▸ List.mem_append.mpr (Or.inl hee))
      · obtain ⟨hty, e, hee, ht⟩ := hcov2 kv h
        refine ⟨hty, e, ?_, ht⟩
        show e ∈ (add_edge pb.2 pb.1 c.1 "Continue").edges
        simp only [add_edge, List.mem_append]
        exact Or.inl hee
    · rcases hret_d with h | h
      · exact Or.inl h
      · refine Or.inr ?_
        simp only [List.map_append, List.mem_append]
        exact Or.inl h
  · refine ⟨led ++ (le2 ++ [{ fromNode := pb.1, toNode := c.1, label := "Continue" }]), ?_, ?_⟩
    · show (add_edge pb.2 pb.1 c.1 "Continue").edges = _
      simp only [add_edge, he2, he_d, List.append_assoc]
    · intro hcur e he
      have hc1' : c.1 ∈ keys s1 := by
        rcases hc1 with h | h
        · exact h
        · rw [h]; exact hkeys_s_s1 _ hcur
      rcases List.mem_append.mp he with h | h
      · obtain ⟨hf, ht⟩ := hcl_d hcur e h
        exact ⟨hkeys_s1_pb _ hf, hkeys_s1_pb _ ht⟩
      · rcases List.mem_append.mp h with h | h
        · obtain ⟨hf, ht⟩ := hcl2 hc1' e h
          exact ⟨hf, ht⟩
        · simp only [List.mem_singleton] at h
          subst h
          refine ⟨?_, hkeys_s1_pb _ hc1'⟩
          rcases hret2 with h | h
          · show pb.1 ∈ keys _
            rw [h]
            exact hkeys_s1_pb _ hc1'
          · show pb.1 ∈ keys _
            have : pb.1 ∈ keys pb.2 := by
              simp only [keys, hn2, List.map_append, List.mem_append]
              exact Or.inr h
            exact this
  · exact le_trans id_d id_2
  · refine Reaches.monotone ?_ reach_d
    intro e he
    show e ∈ (add_edge pb.2 pb.1 c.1 "Continue").edges
    simp only [add_edge, List.mem_append]
    exact Or.inl (he2 ▸ List.mem_append.mpr (Or.inl he))
  · intro cc hcc hlt hfwd
    obtain ⟨hfwd_s1, d', hd', hd'lt⟩ := fwd_d cc hcc hlt hfwd
    obtain ⟨hfwd_pb, b', hb', hb'lt⟩ := fwd_2 d' hd' hd'lt hfwd_s1
    have hdmem : (c.1, { id := c.1, label := label, type := "decision", line := line }) ∈ pb.2.nodes := by
      rw [hn2]
      refine List.mem_append.mpr (Or.inl ?_)
      show _ ∈ (add_edge c.2 cur c.1 "").nodes
      rw [hc]
      simp [create_node, add_edge]
    constructor
    · intro e he
      show Fwd (add_edge pb.2 pb.1 c.1 "Continue").node_id e ∨ _
      simp only [add_edge, List.mem_append, List.mem_singleton] at he
      rcases he with he | he
      · rcases hfwd_pb e he with h | h
        · exact Or.inl h
        · refine Or.inr (h.monoNodes ?_)
          intro kv hkv
          exact hkv
      · subst he
        exact Or.inr ⟨rfl, { id := c.1, label := label, type := "decision", line := line }, hdmem, rfl⟩
    · exact ⟨d', hd', lt_of_lt_of_le hd'lt id_2⟩

theorem stepInv_if (cur : String) (s : GenState) (label lbl : String) (ln : Nat)
    (body orelse : List Stmt)
    (hbody : ∀ (cur' : String) (s' : GenState), StepInv cur' s' (process_body body cur' s'))
    (horelse : ∀ (cur' : String) (s' : GenState), StepInv cur' s' (process_body orelse cur' s')) :
    StepInv cur s
      (let d := create_node s label "decision" (some ln)
       let s1 := add_edge d.2 cur d.1 ""
       let pi := process_body body d.1 s1
       let pe := process_body orelse d.1 pi.2
       let m := create_node pe.2 "Merge" "process" none
       (m.1, add_edge (add_edge m.2 pi.1 m.1 "Yes") pe.1 m.1 lbl)) := by
  dsimp only
  have hd := stepInv_node_edge cur s label "decision" (some ln) (Or.inr rfl)
  set d := create_node s label "decision" (some ln) with hdd
  set s1 := add_edge d.2 cur d.1 "" with hs1
  set pi := process_body body d.1 s1 with hpid
  have hpi := hbody d.1 s1
  rw [← hpid] at hpi
  set pe := process_body orelse d.1 pi.2 with hped
  have hpe := horelse d.1 pi.2
  rw [← hped] at hpe
  set m := create_node pe.2 "Merge" "process" none with hm
  obtain ⟨lnd, hn_d, hcov_d, hret_d⟩ := hd.nodes_app
  obtain ⟨led, he_d, hcl_d⟩ := hd.edges_app
  have id_d := hd.id_mono
  have reach_d := hd.reach
  have fwd_d := hd.fwd
  obtain ⟨lni, hn_i, hcov_i, hret_i⟩ := hpi.nodes_app
  obtain ⟨lei, he_i, hcl_i⟩ := hpi.edges_app
  have id_i := hpi.id_mono
  have reach_i := hpi.reach
  have fwd_i := hpi.fwd
  obtain ⟨lne, hn_e, hcov_e, hret_e⟩ := hpe.nodes_app
  obtain ⟨lee, he_e, hcl_e⟩ := hpe.edges_app
  have id_e := hpe.id_mono
  have fwd_e := hpe.fwd
  dsimp only at hn_d hcov_d hret_d he_d hcl_d id_d reach_d fwd_d hn_i hcov_i hret_i he_i hcl_i id_i reach_i fwd_i hn_e hcov_e hret_e he_e hcl_e id_e fwd_e
  have hm1 : m.1 = nodeName pe.2.node_id := by rw [hm]; rfl
  have hmnodes : m.2.nodes = pe.2.nodes ++
      [(m.1, { id := m.1, label := "Merge", type := "process", line := none })] := by
    rw [hm]
    simp [create_node]
  have hmedges : m.2.edges = pe.2.edges := by rw [hm]; rfl
  have hmid : m.2.node_id = pe.2.node_id + 1 := by rw [hm]; rfl
  have hkeys_s_s1 : ∀ k ∈ keys s, k ∈ keys s1 :=
    keys_mono (by intro kv hkv; rw [hn_d]; exact List.mem_append.mpr (Or.inl hkv))
  have hkeys_s1_pi : ∀ k ∈ keys s1, k ∈ keys pi.2 :=
    keys_mono (by intro kv hkv; rw [hn_i]; exact List.mem_append.mpr (Or.inl hkv))
  have hkeys_pi_pe : ∀ k ∈ keys pi.2, k ∈ keys pe.2 :=
    keys_mono (by intro kv hkv; rw [hn_e]; exact List.mem_append.mpr (Or.inl hkv))
  have hkeys_pe_F : ∀ k ∈ keys pe.2, k ∈ keys m.2 :=
    keys_mono (by intro kv hkv; rw [hmnodes]; exact List.mem_append.mpr (Or.inl hkv))
  -- the final state shares nodes with m.2
  have hFnodes : (add_edge (add_edge m.2 pi.1 m.1 "Yes") pe.1 m.1 lbl).nodes = m.2.nodes := rfl
  have hFedges : (add_edge (add_edge m.2 pi.1 m.1 "Yes") pe.1 m.1 lbl).edges =
      pe.2.edges ++ [{ fromNode := pi.1, toNode := m.1, label := "Yes" },
        { fromNode := pe.1, toNode := m.1, label := lbl }] := by
    simp [add_edge, hmedges]
  have hFid : (add_edge (add_edge m.2 pi.1 m.1 "Yes") pe.1 m.1 lbl).node_id = pe.2.node_id + 1 := hmid
  have hkeysF : keys (add_edge (add_edge m.2 pi.1 m.1 "Yes") pe.1 m.1 lbl) = keys m.2 := rfl
  have hpe_sub_F : ∀ e ∈ pe.2.edges, e ∈ (add_edge (add_edge m.2 pi.1 m.1 "Yes") pe.1 m.1 lbl).edges := by
    intro e he
    rw [hFedges]
    exact List.mem_append.mpr (Or.inl he)
  have hpi_sub_pe : ∀ e ∈ pi.2.edges, e ∈ pe.2.edges := by
    intro e he
    rw [he_e]
    exact List.mem_append.mpr (Or.inl he)
  have hs1_sub_pi : ∀ e ∈ s1.edges, e ∈ pi.2.edges := by
    intro e he
    rw [he_i]
    exact List.mem_append.mpr (Or.inl he)
  have hd1_s1 : cur ∈ keys s → d.1 ∈ keys s1 := by
    intro hcur
    rcases hret_d with h | h
    · rw [h]; exact hkeys_s_s1 _ hcur
    · simp only [keys, hn_d, List.map_append, List.mem_append]
      exact Or.inr h
  have hpi1_pi : cur ∈ keys s → pi.1 ∈ keys pi.2 := by
    intro hcur
    rcases hret_i with h | h
    · rw [h]; exact hkeys_s1_pi _ (hd1_s1 hcur)
    · simp only [keys, hn_i, List.map_append, List.mem_append]
      exact Or.inr h
  have hpe1_pe : cur ∈ keys s → pe.1 ∈ keys pe.2 := by
    intro hcur
    rcases hret_e with h | h
    · rw [h]; exact hkeys_pi_pe _ (hkeys_s1_pi _ (hd1_s1 hcur))
    · simp only [keys, hn_e, List.map_append, List.mem_append]
      exact Or.inr h
  have hm1_F : m.1 ∈ keys m.2 := by
    simp only [keys, hmnodes, List.map_append, List.mem_append]
    right
    simp
  constructor
  · refine ⟨lnd ++ lni ++ lne ++
        [(m.1, { id := m.1, label := "Merge", type := "process", line := none })], ?_, ?_, ?_⟩
    · show m.2.nodes = _
      rw [hmnodes, hn_e, hn_i, hn_d]
      simp [List.append_assoc]
    · intro kv hkv
      simp only [List.mem_append, List.mem_singleton] at hkv
      rcases hkv with ((h | h) | h) | h
      · obtain ⟨hty, e, hee, ht⟩ := hcov_d kv h
        exact ⟨hty, e, hpe_sub_F e (hpi_sub_pe e (hs1_sub_pi e hee)), ht⟩
      · obtain ⟨hty, e, hee, ht⟩ := hcov_i kv h
        exact ⟨hty, e, hpe_sub_F e (hpi_sub_pe e hee), ht⟩
      · obtain ⟨hty, e, hee, ht⟩ := hcov_e kv h
        exact ⟨hty, e, hpe_sub_F e hee, ht⟩
      · subst h
        refine ⟨Or.inl rfl, { fromNode := pi.1, toNode := m.1, label := "Yes" }, ?_, rfl⟩
        rw [hFedges]
        refine List.mem_append.mpr (Or.inr ?_)
        simp
    · refine Or.inr ?_
      simp
  · refine ⟨led ++ lei ++ lee ++
        [{ fromNode := pi.1, toNode := m.1, label := "Yes" },
         { fromNode := pe.1, toNode := m.1, label := lbl }], ?_, ?_⟩
    · rw [hFedges, he_e, he_i, he_d]
      simp [List.append_assoc]
    · intro hcur e he
      rw [hkeysF]
      simp only [List.mem_append, List.mem_singleton, List.mem_cons, List.not_mem_nil, or_false] at he
      rcases he with ((h | h) | h) | h | h
      · obtain ⟨hf, ht⟩ := hcl_d hcur e h
        exact ⟨hkeys_pe_F _ (hkeys_pi_pe _ (hkeys_s1_pi _ hf)),
               hkeys_pe_F _ (hkeys_pi_pe _ (hkeys_s1_pi _ ht))⟩
      · obtain ⟨hf, ht⟩ := hcl_i (hd1_s1 hcur) e h
        exact ⟨hkeys_pe_F _ (hkeys_pi_pe _ hf), hkeys_pe_F _ (hkeys_pi_pe _ ht)⟩
      · obtain ⟨hf, ht⟩ := hcl_e (hkeys_s1_pi _ (hd1_s1 hcur)) e h
        exact ⟨hkeys_pe_F _ hf, hkeys_pe_F _ ht⟩
      · subst h
        exact ⟨hkeys_pe_F _ (hkeys_pi_pe _ (hpi1_pi hcur)), hm1_F⟩
      · subst h
        exact ⟨hkeys_pe_F _ (hpe1_pe hcur), hm1_F⟩
  · show s.node_id ≤ (add_edge (add_edge m.2 pi.1 m.1 "Yes") pe.1 m.1 lbl).node_id
    rw [hFid]
    have := le_trans id_d (le_trans id_i id_e)
    omega
  · refine Reaches.tail (Reaches.trans (reach_d.monotone ?_) (reach_i.monotone ?_)) ?_
    · intro e he
      exact hpe_sub_F e (hpi_sub_pe e (hs1_sub_pi e he))
    · intro e he
      exact hpe_sub_F e (hpi_sub_pe e he)
    · refine ⟨{ fromNode := pi.1, toNode := m.1, label := "Yes" }, ?_, rfl, rfl⟩
      rw [hFedges]
      refine List.mem_append.mpr (Or.inr ?_)
      simp
  · intro cc hcc hlt hfwd
    obtain ⟨hfwd_s1, d', hd', hd'lt⟩ := fwd_d cc hcc hlt hfwd
    obtain ⟨hfwd_pi, i', hi', hi'lt⟩ := fwd_i d' hd' hd'lt hfwd_s1
    obtain ⟨hfwd_pe, j', hj', hj'lt⟩ := fwd_e d' hd' (lt_of_lt_of_le hd'lt id_i) hfwd_pi
    have hnodes_pe_F : ∀ kv ∈ pe.2.nodes, kv ∈ (add_edge (add_edge m.2 pi.1 m.1 "Yes") pe.1 m.1 lbl).nodes := by
      intro kv hkv
      rw [hFnodes, hmnodes]
      exact List.mem_append.mpr (Or.inl hkv)
    constructor
    · intro e he
      rw [hFedges] at he
      simp only [List.mem_append, List.mem_cons, List.mem_singleton, List.not_mem_nil, or_false] at he
      rcases he with he | he | he
      · rcases hfwd_pe e he with h | h
        · refine Or.inl (h.monoBound ?_)
          rw [hFid]
          omega
        · exact Or.inr (h.monoNodes hnodes_pe_F)
      · subst he
        refine Or.inl ⟨i', pe.2.node_id, lt_of_lt_of_le hi'lt id_e, ?_, hi', hm1⟩
        rw [hFid]
        omega
      · subst he
        refine Or.inl ⟨j', pe.2.node_id, hj'lt, ?_, hj', hm1⟩
        rw [hFid]
        omega
    · refine ⟨pe.2.node_id, hm1, ?_⟩
      rw [hFid]
      omega

mutual

theorem process_statement_inv : ∀ (stmt : Stmt) (cur : String) (s : GenState),
    StepInv cur s (process_statement stmt cur s)
  | .assign targets ln, cur, s =>
      StepInv.cast_vars
        (stepInv_node_edge cur
          { s with variables_used := updateVars s.variables_used (targetNames targets) }
          ("Assign: " ++ String.intercalate ", " (targetNames targets)) "process" (some ln)
          (Or.inl rfl))
  | .ifStmt test body orelse ln, cur, s =>
      stepInv_if cur s ("If " ++ test ++ "?") (if orelse.isEmpty then "" else "No") ln body orelse
        (fun cur' s' => process_body_inv body cur' s')
        (fun cur' s' => process_body_inv orelse cur' s')
  | .forStmt target iter body _orelse ln, cur, s =>
      stepInv_loop cur s ("For " ++ target.getD "item" ++ " in " ++ iter) (some ln) body
        (fun cur' s' => process_body_inv body cur' s')
  | .whileStmt test body _orelse ln, cur, s =>
      stepInv_loop cur s ("While " ++ test ++ "?") (some ln) body
        (fun cur' s' => process_body_inv body cur' s')
  | .functionDef fname args _body ln, cur, s =>
      StepInv.cast_vars
        (stepInv_node_edge cur
          { s with functions_defined :=
              s.functions_defined ++ [{ name := fname, args := args, line := ln }] }
          ("Function: " ++ fname) "process" (some ln) (Or.inl rfl))
  | .ret ln, cur, s =>
      stepInv_node_edge cur s "Return" "process" (some ln) (Or.inl rfl)
  | .exprCall func ln, cur, s =>
      stepInv_node_edge cur s ("Call: " ++ func.getD "function" ++ "()") "process" (some ln)
        (Or.inl rfl)
  | .generic typeName ln _nested, cur, s =>
      stepInv_node_edge cur s ("Statement: " ++ typeName) "process" ln (Or.inl rfl)

theorem process_body_inv : ∀ (body : List Stmt) (cur : String) (s : GenState),
    StepInv cur s (process_body body cur s)
  | [], cur, s => stepInv_id cur s
  | st :: rest, cur, s =>
      StepInv.comp (process_statement_inv st cur s)
        (process_body_inv rest (process_statement st cur s).1 (process_statement st cur s).2)

end

end PyFlow

namespace PyFlow

mutual

theorem stmtComplexity_eq : ∀ st : Stmt,
    stmtComplexity st = (stmtLoops st : ℚ) + (stmtIfs st : ℚ) / 2
  | .assign _ _ => by simp [stmtComplexity, stmtLoops, stmtIfs]
  | .ifStmt _ b o _ => by
      have hb := bodyComplexity_eq b
      have ho := bodyComplexity_eq o
      simp only [stmtComplexity, stmtLoops, stmtIfs, hb, ho]
      push_cast
      ring
  | .forStmt _ _ b o _ => by
      have hb := bodyComplexity_eq b
      have ho := bodyComplexity_eq o
      simp only [stmtComplexity, stmtLoops, stmtIfs, hb, ho]
      push_cast
      ring
  | .whileStmt _ b o _ => by
      have hb := bodyComplexity_eq b
      have ho := bodyComplexity_eq o
      simp only [stmtComplexity, stmtLoops, stmtIfs, hb, ho]
      push_cast
      ring
  | .functionDef _ _ b _ => by
      have hb := bodyComplexity_eq b
      simp [stmtComplexity, stmtLoops, stmtIfs, hb]
  | .ret _ => by simp [stmtComplexity, stmtLoops, stmtIfs]
  | .exprCall _ _ => by simp [stmtComplexity, stmtLoops, stmtIfs]
  | .generic _ _ b => by
      have hb := bodyComplexity_eq b
      simp [stmtComplexity, stmtLoops, stmtIfs, hb]

theorem bodyComplexity_eq : ∀ l : List Stmt,
    bodyComplexity l = (bodyLoops l : ℚ) + (bodyIfs l : ℚ) / 2
  | [] => by simp [bodyComplexity, bodyLoops, bodyIfs]
  | st :: rest => by
      have h1 := stmtComplexity_eq st
      have h2 := bodyComplexity_eq rest
      simp only [bodyComplexity, bodyLoops, bodyIfs, h1, h2]
      push_cast
      ring

end

theorem complexityLabel_cases (q : ℚ) :
    (q = 0 → complexityLabel q = "O(1)") ∧
    (0 < q → q ≤ 1 → complexityLabel q = "O(n)") ∧
    (1 < q → q ≤ 2 → complexityLabel q = "O(n²)") ∧
    (2 < q → complexityLabel q = "O(n³+)") := by
  unfold complexityLabel
  refine ⟨?_, ?_, ?_, ?_⟩
  · intro h
    simp [h]
  · intro h1 h2
    rw [if_neg (by linarith), if_pos h2]
  · intro h1 h2
    rw [if_neg (by linarith), if_neg (by linarith), if_pos h2]
  · intro h
    rw [if_neg (by linarith), if_neg (by linarith), if_neg (by linarith)]

end PyFlow

namespace PyFlow

/-- C5: the complexity score is 1.0 per loop plus 0.5 per conditional over
the whole tree, and the emitted label buckets the score as: 0 ⇒ O(1),
(0,1] ⇒ O(n), (1,2] ⇒ O(n²), >2 ⇒ O(n³+); one conditional and no loops
yields the linear label. -/
theorem complexity_score_and_label :
    (∀ body : List Stmt,
      bodyComplexity body = (bodyLoops body : ℚ) + (bodyIfs body : ℚ) / 2) ∧
    (∀ body : List Stmt,
      (bodyComplexity body = 0 → complexityLabel (bodyComplexity body) = "O(1)") ∧
      (0 < bodyComplexity body → bodyComplexity body ≤ 1 →
        complexityLabel (bodyComplexity body) = "O(n)") ∧
      (1 < bodyComplexity body → bodyComplexity body ≤ 2 →
        complexityLabel (bodyComplexity body) = "O(n²)") ∧
      (2 < bodyComplexity body → complexityLabel (bodyComplexity body) = "O(n³+)")) ∧
    (∀ body : List Stmt, bodyIfs body = 1 → bodyLoops body = 0 →
      complexityLabel (bodyComplexity body) = "O(n)") := by
  refine ⟨bodyComplexity_eq, fun body => complexityLabel_cases (bodyComplexity body), ?_⟩
  intro body hifs hloops
  have h := bodyComplexity_eq body
  rw [hifs, hloops] at h
  norm_num at h
  exact (complexityLabel_cases (bodyComplexity body)).2.1 (by rw [h]; norm_num)
    (by rw [h]; norm_num)

/-- Witness for C5 at the input `[if c: pass-like generic]`: one
conditional, no loops, linear label. -/
theorem complexity_score_and_label_witness :
    complexityLabel (bodyComplexity [Stmt.ifStmt "c" [Stmt.ret 2] [] 1]) = "O(n)" :=
  complexity_score_and_label.2.2 [Stmt.ifStmt "c" [Stmt.ret 2] [] 1] (by decide) (by decide)

/-- C1 (divergence witness): a parse failure is re-raised by
`generate_from_code` as a plain Exception (not a SyntaxError), so the
route's `except SyntaxError` branch never fires and the boundary returns a
500 server error carrying the wrapped parser message; no graph is
produced. -/
theorem parse_failure_wrapped_as_500 (msg : String) :
    generate_from_code (Except.error msg) =
      Except.error (PyError.genericError ("Failed to generate flowchart: " ++ msg)) ∧
    generate_flowchart (Except.error msg) =
      Except.error (HTTPError.mk 500
        ("Error generating flowchart: " ++ ("Failed to generate flowchart: " ++ msg))) ∧
    ∀ r, generate_from_code (Except.error msg) ≠ Except.ok r := by
  refine ⟨rfl, rfl, ?_⟩
  intro r h
  cases h

/-- Witness for C1 at the concrete invalid input `if x` (parser message
as CPython renders it). -/
theorem parse_failure_wrapped_as_500_witness :
    generate_from_code (Except.error "invalid syntax (<unknown>, line 1)") ≠
      Except.ok ("", { nodes := [], complexity := "", variablesList := [], functions := [] }) :=
  (parse_failure_wrapped_as_500 "invalid syntax (<unknown>, line 1)").2.2 _

/-- C7: a statement of any kind the visitor does not specially handle
always yields a generic process node labeled with the syntactic kind name,
carrying the line number when available, with an edge from the current
node, and returns the new node — the visitor is total on such statements. -/
theorem generic_statement_total (typeName : String) (ln : Option Nat)
    (nested : List Stmt) (cur : String) (s : GenState) :
    process_statement (.generic typeName ln nested) cur s =
      (nodeName s.node_id,
       { s with
           node_id := s.node_id + 1,
           nodes := s.nodes ++ [(nodeName s.node_id,
             { id := nodeName s.node_id, label := "Statement: " ++ typeName,
               type := "process", line := ln })],
           edges := s.edges ++ [{ fromNode := cur, toNode := nodeName s.node_id, label := "" }] }) :=
  rfl

/-- C10: an assignment whose targets contain no simple name still
succeeds, produces a process node labeled exactly "Assign: " (empty name
list), adds an edge from the current node, leaves the variables-used set
unchanged, and returns the new node. -/
theorem assign_no_simple_targets (targets : List Target) (ln : Nat)
    (cur : String) (s : GenState) (h : ∀ t ∈ targets, t = Target.other) :
    process_statement (.assign targets ln) cur s =
      (nodeName s.node_id,
       { s with
           node_id := s.node_id + 1,
           nodes := s.nodes ++ [(nodeName s.node_id,
             { id := nodeName s.node_id, label := "Assign: ",
               type := "process", line := some ln })],
           edges := s.edges ++ [{ fromNode := cur, toNode := nodeName s.node_id, label := "" }] }) := by
  have htn : targetNames targets = [] := by
    rw [targetNames, List.filterMap_eq_nil_iff]
    intro t ht
    rw [h t ht]
  simp only [process_statement, htn]
  rfl

/-- Witness for C10 at a single attribute-style target. -/
theorem assign_no_simple_targets_witness :
    process_statement (.assign [Target.other] 3) "node0" initState =
      (nodeName 0,
       { initState with
           node_id := 1,
           nodes := [(nodeName 0,
             { id := nodeName 0, label := "Assign: ", type := "process", line := some 3 })],
           edges := [{ fromNode := "node0", toNode := nodeName 0, label := "" }] }) :=
  assign_no_simple_targets [Target.other] 3 "node0" initState (by decide)

end PyFlow

namespace PyFlow

/-- C8: compilation is deterministic and the serializer is a pure function
of the graph: header, then node lines in creation order with shape keyed
by kind, then edge lines in creation order, labeled arrow iff the edge
carries a label. -/
theorem mermaid_deterministic_serialization :
    (∀ parsed : Except String (List Stmt),
      generate_from_code parsed = generate_from_code parsed) ∧
    (∀ s t : GenState, s.nodes = t.nodes → s.edges = t.edges →
      generate_mermaid s = generate_mermaid t) ∧
    (∀ s : GenState, generate_mermaid s =
      String.intercalate "\n" ("flowchart TD" :: (s.nodes.map nodeLine ++ s.edges.map edgeLine))) ∧
    (∀ kv : String × Node, kv.2.type = "start" →
      nodeLine kv = "    " ++ kv.1 ++ "([" ++ kv.2.label ++ "])") ∧
    (∀ kv : String × Node, kv.2.type = "end" →
      nodeLine kv = "    " ++ kv.1 ++ "([" ++ kv.2.label ++ "])") ∧
    (∀ kv : String × Node, kv.2.type = "decision" →
      nodeLine kv = "    " ++ kv.1 ++ "\x7b" ++ kv.2.label ++ "\x7d") ∧
    (∀ kv : String × Node, kv.2.type = "process" →
      nodeLine kv = "    " ++ kv.1 ++ "[" ++ kv.2.label ++ "]") ∧
    (∀ e : Edge, e.label ≠ "" →
      edgeLine e = "    " ++ e.fromNode ++ " -->|" ++ e.label ++ "| " ++ e.toNode) ∧
    (∀ e : Edge, e.label = "" →
      edgeLine e = "    " ++ e.fromNode ++ " --> " ++ e.toNode) := by
  refine ⟨fun _ => rfl, ?_, fun s => rfl, ?_, ?_, ?_, ?_, ?_, ?_⟩
  · intro s t hn he
    unfold generate_mermaid
    rw [hn, he]
  · intro kv h
    simp [nodeLine, h]
  · intro kv h
    simp [nodeLine, h]
  · intro kv h
    simp [nodeLine, h]
  · intro kv h
    simp [nodeLine, h]
  · intro e h
    simp [edgeLine, h]
  · intro e h
    simp [edgeLine, h]

/-- Witness for C8 on a concrete state (one decision node, one labeled
edge, one unlabeled edge). -/
theorem mermaid_deterministic_serialization_witness :
    nodeLine ("node1", { id := "node1", label := "If x?", type := "decision", line := some 1 }) =
      "    " ++ "node1" ++ "\x7b" ++ "If x?" ++ "\x7d" ∧
    edgeLine { fromNode := "node1", toNode := "node2", label := "Yes" } =
      "    " ++ "node1" ++ " -->|" ++ "Yes" ++ "| " ++ "node2" ∧
    edgeLine { fromNode := "node1", toNode := "node2", label := "" } =
      "    " ++ "node1" ++ " --> " ++ "node2" :=
  ⟨mermaid_deterministic_serialization.2.2.2.2.2.1 _ rfl,
   mermaid_deterministic_serialization.2.2.2.2.2.2.2.1 _ (by decide),
   mermaid_deterministic_serialization.2.2.2.2.2.2.2.2 _ rfl⟩

/-- C9 (counterexample): for `if x > 0: y = 1` the edge from the decision
node into the merge node carries the empty label, not "No". -/
theorem if_no_else_edge_not_labeled_no :
    Edge.mk "node1" "node3" "No" ∉ (runPipeline exampleIfNoElse).edges := by
  decide

/-- C9 (amended): for `if x > 0: y = 1` (no else) the graph has a decision
node, one process node on the "Yes" path, and a merge node with an
UNLABELED edge going directly from the decision node into the merge node
(the else-exit being the decision node itself). -/
theorem if_no_else_example_graph :
    ("node1", { id := "node1", label := "If x > 0?", type := "decision", line := some 1 }) ∈ (runPipeline exampleIfNoElse).nodes ∧
    ("node2", { id := "node2", label := "Assign: y", type := "process", line := some 1 }) ∈ (runPipeline exampleIfNoElse).nodes ∧
    Edge.mk "node2" "node3" "Yes" ∈ (runPipeline exampleIfNoElse).edges ∧
    ("node3", { id := "node3", label := "Merge", type := "process", line := none }) ∈ (runPipeline exampleIfNoElse).nodes ∧
    Edge.mk "node1" "node3" "" ∈ (runPipeline exampleIfNoElse).edges := by
  decide

end PyFlow

namespace PyFlow

/-- C2: every compiled graph has exactly one start node and one end node,
and every non-start node has at least one incoming edge. -/
theorem graph_one_start_one_end_incoming (body : List Stmt) :
    countType (runPipeline body) "start" = 1 ∧
    countType (runPipeline body) "end" = 1 ∧
    ∀ kv ∈ (runPipeline body).nodes, kv.2.type ≠ "start" →
      ∃ e ∈ (runPipeline body).edges, e.toNode = kv.1 := by
  unfold runPipeline
  dsimp only
  set st := create_node initState "START" "start" none with hst
  set p := process_body body st.1 st.2 with hpd
  set en := create_node p.2 "END" "end" none with hen
  have hp := process_body_inv body st.1 st.2
  rw [← hpd] at hp
  obtain ⟨ln, hn, hcov, hret⟩ := hp.nodes_app
  obtain ⟨le, he, hcl⟩ := hp.edges_app
  have hstnodes : st.2.nodes =
      [(nodeName 0, { id := nodeName 0, label := "START", type := "start", line := none })] := by
    rw [hst]; rfl
  have hFnodes : (add_edge en.2 p.1 en.1 "").nodes =
      p.2.nodes ++ [(en.1, { id := en.1, label := "END", type := "end", line := none })] := by
    rw [hen]; rfl
  have hFedges : (add_edge en.2 p.1 en.1 "").edges =
      p.2.edges ++ [{ fromNode := p.1, toNode := en.1, label := "" }] := by
    rw [hen]; rfl
  have hln_count : ∀ t' : String, t' = "start" ∨ t' = "end" →
      (ln.countP fun kv => kv.2.type = t') = 0 := by
    intro t' ht'
    rw [List.countP_eq_zero]
    intro kv hkv
    obtain ⟨hty, _⟩ := hcov kv hkv
    rcases ht' with h | h <;> subst h <;> rcases hty with h | h <;> simp [h]
  refine ⟨?_, ?_, ?_⟩
  · unfold countType
    rw [hFnodes, hn, hstnodes, List.countP_append, List.countP_append,
      hln_count "start" (Or.inl rfl)]
    simp
  · unfold countType
    rw [hFnodes, hn, hstnodes, List.countP_append, List.countP_append,
      hln_count "end" (Or.inr rfl)]
    simp
  · intro kv hkv hty
    rw [hFnodes, hn, hstnodes] at hkv
    simp only [List.cons_append, List.nil_append, List.mem_cons, List.mem_append,
      List.mem_singleton] at hkv
    rcases hkv with h | h | h | h
    · subst h
      simp at hty
    · obtain ⟨_, e, hee, ht⟩ := hcov kv h
      refine ⟨e, ?_, ht⟩
      rw [hFedges]
      exact List.mem_append.mpr (Or.inl hee)
    · subst h
      refine ⟨{ fromNode := p.1, toNode := en.1, label := "" }, ?_, rfl⟩
      rw [hFedges]
      refine List.mem_append.mpr (Or.inr ?_)
      simp
    · exact absurd h (List.not_mem_nil kv)

/-- Witness for C2 at the input `return` (one Return statement). -/
theorem graph_one_start_one_end_incoming_witness :
    ∃ e ∈ (runPipeline [Stmt.ret 1]).edges, e.toNode = "node1" :=
  (graph_one_start_one_end_incoming [Stmt.ret 1]).2.2
    ("node1", { id := "node1", label := "Return", type := "process", line := some 1 })
    (by decide) (by decide)

end PyFlow

namespace PyFlow

/-- C6: every edge in a finished graph references a from-node and a
to-node that exist in the node mapping, although `add_edge` itself
validates nothing. -/
theorem edges_reference_existing_nodes (body : List Stmt) :
    ∀ e ∈ (runPipeline body).edges,
      e.fromNode ∈ keys (runPipeline body) ∧ e.toNode ∈ keys (runPipeline body) := by
  unfold runPipeline
  dsimp only
  set st := create_node initState "START" "start" none with hst
  set p := process_body body st.1 st.2 with hpd
  set en := create_node p.2 "END" "end" none with hen
  have hp := process_body_inv body st.1 st.2
  rw [← hpd] at hp
  obtain ⟨ln, hn, hcov, hret⟩ := hp.nodes_app
  obtain ⟨le, he, hcl⟩ := hp.edges_app
  have hst2edges : st.2.edges = [] := by rw [hst]; rfl
  have hst1keys : st.1 ∈ keys st.2 := by
    rw [hst]
    simp [keys, create_node, initState]
  have hFnodes : (add_edge en.2 p.1 en.1 "").nodes =
      p.2.nodes ++ [(en.1, { id := en.1, label := "END", type := "end", line := none })] := by
    rw [hen]; rfl
  have hFedges : (add_edge en.2 p.1 en.1 "").edges =
      p.2.edges ++ [{ fromNode := p.1, toNode := en.1, label := "" }] := by
    rw [hen]; rfl
  have hkeys_p_F : ∀ k ∈ keys p.2, k ∈ keys (add_edge en.2 p.1 en.1 "") := by
    refine keys_mono ?_
    intro kv hkv
    rw [hFnodes]
    exact List.mem_append.mpr (Or.inl hkv)
  have hkeys_st_p : ∀ k ∈ keys st.2, k ∈ keys p.2 := by
    refine keys_mono ?_
    intro kv hkv
    rw [hn]
    exact List.mem_append.mpr (Or.inl hkv)
  intro e hee
  rw [hFedges] at hee
  rcases List.mem_append.mp hee with h | h
  · have hle : e ∈ le := by
      rw [he, hst2edges, List.nil_append] at h
      exact h
    obtain ⟨hf, ht⟩ := hcl hst1keys e hle
    exact ⟨hkeys_p_F _ hf, hkeys_p_F _ ht⟩
  · simp only [List.mem_singleton] at h
    subst h
    constructor
    · show p.1 ∈ _
      refine hkeys_p_F _ ?_
      rcases hret with h | h
      · rw [h]
        exact hkeys_st_p _ hst1keys
      · simp only [keys, hn, List.map_append, List.mem_append]
        exact Or.inr h
    · show en.1 ∈ _
      simp only [keys, hFnodes, List.map_append, List.mem_append]
      right
      simp

/-- Witness for C6 on the spec's no-else example. -/
theorem edges_reference_existing_nodes_witness :
    Edge.mk "node1" "node3" "" ∈ (runPipeline exampleIfNoElse).edges ∧
    "node1" ∈ keys (runPipeline exampleIfNoElse) ∧
    "node3" ∈ keys (runPipeline exampleIfNoElse) :=
  ⟨by decide,
   (edges_reference_existing_nodes exampleIfNoElse (Edge.mk "node1" "node3" "") (by decide)).1,
   (edges_reference_existing_nodes exampleIfNoElse (Edge.mk "node1" "node3" "") (by decide)).2⟩

end PyFlow

namespace PyFlow

/-- C4: each loop statement creates a decision node, threads the body from
it, adds a back-edge labeled "Continue" from the body's exit to the loop
decision node (which is reachable from the loop node, i.e. a cycle), and
returns the loop node itself; moreover in any finished graph every edge
either goes strictly forward in creation order or is a "Continue"
back-edge into a decision node — cycles arise only there. -/
theorem loop_back_edge_and_cycles :
    (∀ (target : Option String) (iter : String) (body orelse : List Stmt) (ln : Nat)
        (cur : String) (s : GenState),
      let c := create_node s ("For " ++ target.getD "item" ++ " in " ++ iter) "decision" (some ln)
      let s1 := add_edge c.2 cur c.1 ""
      let pb := process_body body c.1 s1
      process_statement (.forStmt target iter body orelse ln) cur s =
          (c.1, add_edge pb.2 pb.1 c.1 "Continue") ∧
        (c.1, { id := c.1, label := "For " ++ target.getD "item" ++ " in " ++ iter,
                type := "decision", line := some ln }) ∈ (add_edge pb.2 pb.1 c.1 "Continue").nodes ∧
        Edge.mk pb.1 c.1 "Continue" ∈ (add_edge pb.2 pb.1 c.1 "Continue").edges ∧
        Reaches (add_edge pb.2 pb.1 c.1 "Continue").edges c.1 pb.1) ∧
    (∀ (test : String) (body orelse : List Stmt) (ln : Nat) (cur : String) (s : GenState),
      let c := create_node s ("While " ++ test ++ "?") "decision" (some ln)
      let s1 := add_edge c.2 cur c.1 ""
      let pb := process_body body c.1 s1
      process_statement (.whileStmt test body orelse ln) cur s =
          (c.1, add_edge pb.2 pb.1 c.1 "Continue") ∧
        (c.1, { id := c.1, label := "While " ++ test ++ "?",
                type := "decision", line := some ln }) ∈ (add_edge pb.2 pb.1 c.1 "Continue").nodes ∧
        Edge.mk pb.1 c.1 "Continue" ∈ (add_edge pb.2 pb.1 c.1 "Continue").edges ∧
        Reaches (add_edge pb.2 pb.1 c.1 "Continue").edges c.1 pb.1) ∧
    (∀ prog : List Stmt, ∀ e ∈ (runPipeline prog).edges,
      Fwd (runPipeline prog).node_id e ∨ ContinueBack (runPipeline prog) e) := by
  have hloop : ∀ (label : String) (line : Option Nat) (body : List Stmt)
      (cur : String) (s : GenState),
      let c := create_node s label "decision" line
      let s1 := add_edge c.2 cur c.1 ""
      let pb := process_body body c.1 s1
      (c.1, { id := c.1, label := label, type := "decision", line := line })
          ∈ (add_edge pb.2 pb.1 c.1 "Continue").nodes ∧
        Edge.mk pb.1 c.1 "Continue" ∈ (add_edge pb.2 pb.1 c.1 "Continue").edges ∧
        Reaches (add_edge pb.2 pb.1 c.1 "Continue").edges c.1 pb.1 := by
    intro label line body cur s
    dsimp only
    set c := create_node s label "decision" line with hc
    set s1 := add_edge c.2 cur c.1 "" with hs1
    set pb := process_body body c.1 s1 with hpbd
    have hpb := process_body_inv body c.1 s1
    rw [← hpbd] at hpb
    obtain ⟨ln2, hn2, _, _⟩ := hpb.nodes_app
    refine ⟨?_, ?_, ?_⟩
    · show _ ∈ pb.2.nodes
      rw [hn2]
      refine List.mem_append.mpr (Or.inl ?_)
      show _ ∈ c.2.nodes
      rw [hc]
      simp [create_node]
    · show _ ∈ pb.2.edges ++ _
      refine List.mem_append.mpr (Or.inr ?_)
      simp
    · refine Reaches.monotone ?_ hpb.reach
      intro e he
      show e ∈ pb.2.edges ++ _
      exact List.mem_append.mpr (Or.inl he)
  refine ⟨?_, ?_, ?_⟩
  · intro target iter body orelse ln cur s
    exact ⟨rfl, hloop ("For " ++ target.getD "item" ++ " in " ++ iter) (some ln) body cur s⟩
  · intro test body orelse ln cur s
    exact ⟨rfl, hloop ("While " ++ test ++ "?") (some ln) body cur s⟩
  · intro prog
    unfold runPipeline
    dsimp only
    set st := create_node initState "START" "start" none with hst
    set p := process_body prog st.1 st.2 with hpd
    set en := create_node p.2 "END" "end" none with hen
    have hp := process_body_inv prog st.1 st.2
    rw [← hpd] at hp
    have hst1 : st.1 = nodeName 0 := by rw [hst]; rfl
    have hstid : st.2.node_id = 1 := by rw [hst]; rfl
    have hst2edges : st.2.edges = [] := by rw [hst]; rfl
    have hfwd0 := hp.fwd 0 hst1 (by rw [hstid]; exact Nat.zero_lt_one)
      (by intro e he; rw [hst2edges] at he; exact absurd he (List.not_mem_nil e))
    obtain ⟨hfwdp, r, hr, hrlt⟩ := hfwd0
    have hFnodes : (add_edge en.2 p.1 en.1 "").nodes =
        p.2.nodes ++ [(en.1, { id := en.1, label := "END", type := "end", line := none })] := by
      rw [hen]; rfl
    have hFedges : (add_edge en.2 p.1 en.1 "").edges =
        p.2.edges ++ [{ fromNode := p.1, toNode := en.1, label := "" }] := by
      rw [hen]; rfl
    have hFid : (add_edge en.2 p.1 en.1 "").node_id = p.2.node_id + 1 := by
      rw [hen]; rfl
    have hen1 : en.1 = nodeName p.2.node_id := by rw [hen]; rfl
    intro e he
    rw [hFedges] at he
    rcases List.mem_append.mp he with h | h
    · rcases hfwdp e h with hh | hh
      · refine Or.inl (hh.monoBound ?_)
        rw [hFid]
        omega
      · refine Or.inr (hh.monoNodes ?_)
        intro kv hkv
        rw [hFnodes]
        exact List.mem_append.mpr (Or.inl hkv)
    · simp only [List.mem_singleton] at h
      subst h
      refine Or.inl ⟨r, p.2.node_id, hrlt, ?_, hr, hen1⟩
      rw [hFid]
      omega

/-- Witness for C4: the loop node of `while x: pass-like return` gets a
"Continue" back-edge from the body's exit and every edge of that compiled
graph is forward or a Continue back-edge. -/
theorem loop_back_edge_and_cycles_witness :
    Edge.mk "node2" "node1" "Continue" ∈ (runPipeline [Stmt.whileStmt "x" [Stmt.ret 1] [] 1]).edges ∧
    (Fwd (runPipeline [Stmt.whileStmt "x" [Stmt.ret 1] [] 1]).node_id (Edge.mk "node0" "node1" "") ∨
      ContinueBack (runPipeline [Stmt.whileStmt "x" [Stmt.ret 1] [] 1]) (Edge.mk "node0" "node1" "")) :=
  ⟨by decide,
   loop_back_edge_and_cycles.2.2 [Stmt.whileStmt "x" [Stmt.ret 1] [] 1]
     (Edge.mk "node0" "node1" "") (by decide)⟩

end PyFlow

namespace PyFlow

/-- C3: each conditional creates one decision node, always creates a
single merge process node after both branches, adds then-exit → merge
labeled "Yes", adds else-exit → merge labeled "No" when an else branch
exists and unlabeled otherwise (the else-exit being the decision node
itself in that case), and returns the merge node. -/
theorem if_merge_structure (test : String) (body orelse : List Stmt) (ln : Nat)
    (cur : String) (s : GenState) :
    let d := create_node s ("If " ++ test ++ "?") "decision" (some ln)
    let s1 := add_edge d.2 cur d.1 ""
    let pi := process_body body d.1 s1
    let pe := process_body orelse d.1 pi.2
    let m := create_node pe.2 "Merge" "process" none
    let F := add_edge (add_edge m.2 pi.1 m.1 "Yes") pe.1 m.1 (if orelse.isEmpty then "" else "No")
    process_statement (.ifStmt test body orelse ln) cur s = (m.1, F) ∧
    (d.1, { id := d.1, label := "If " ++ test ++ "?", type := "decision", line := some ln }) ∈ F.nodes ∧
    (m.1, { id := m.1, label := "Merge", type := "process", line := none }) ∈ F.nodes ∧
    Edge.mk pi.1 m.1 "Yes" ∈ F.edges ∧
    (orelse ≠ [] → Edge.mk pe.1 m.1 "No" ∈ F.edges) ∧
    (orelse = [] → pe.1 = d.1 ∧ Edge.mk d.1 m.1 "" ∈ F.edges) := by
  dsimp only
  set d := create_node s ("If " ++ test ++ "?") "decision" (some ln) with hdd
  set s1 := add_edge d.2 cur d.1 "" with hs1d
  set pi := process_body body d.1 s1 with hpid
  have hpi := process_body_inv body d.1 s1
  rw [← hpid] at hpi
  set pe := process_body orelse d.1 pi.2 with hped
  have hpe := process_body_inv orelse d.1 pi.2
  rw [← hped] at hpe
  set m := create_node pe.2 "Merge" "process" none with hmd
  obtain ⟨lni, hn_i, _, _⟩ := hpi.nodes_app
  obtain ⟨lne, hn_e, _, _⟩ := hpe.nodes_app
  have hmn : m.2.nodes = pe.2.nodes ++
      [(m.1, { id := m.1, label := "Merge", type := "process", line := none })] := by
    rw [hmd]; rfl
  have hmed : m.2.edges = pe.2.edges := by rw [hmd]; rfl
  have hFedges : (add_edge (add_edge m.2 pi.1 m.1 "Yes") pe.1 m.1
        (if orelse.isEmpty then "" else "No")).edges =
      pe.2.edges ++ [Edge.mk pi.1 m.1 "Yes",
        Edge.mk pe.1 m.1 (if orelse.isEmpty then "" else "No")] := by
    simp [add_edge, hmed]
  refine ⟨rfl, ?_, ?_, ?_, ?_, ?_⟩
  · show _ ∈ m.2.nodes
    rw [hmn]
    refine List.mem_append.mpr (Or.inl ?_)
    rw [hn_e]
    refine List.mem_append.mpr (Or.inl ?_)
    rw [hn_i]
    refine List.mem_append.mpr (Or.inl ?_)
    show _ ∈ d.2.nodes
    rw [hdd]
    simp [create_node]
  · show _ ∈ m.2.nodes
    rw [hmn]
    refine List.mem_append.mpr (Or.inr ?_)
    simp
  · rw [hFedges]
    refine List.mem_append.mpr (Or.inr ?_)
    simp
  · intro hne
    rw [hFedges]
    refine List.mem_append.mpr (Or.inr ?_)
    have : orelse.isEmpty = false := by
      rw [List.isEmpty_eq_false]
      exact hne
    simp [this]
  · intro heq
    have hpe1 : pe.1 = d.1 := by
      rw [hped, heq]
      rfl
    refine ⟨hpe1, ?_⟩
    rw [hFedges]
    refine List.mem_append.mpr (Or.inr ?_)
    simp [heq, hpe1]

/-- Witness for C3 on `if x > 0: y = 1` with no else: the else-exit is
the decision node and the merge edge from it is unlabeled. -/
theorem if_merge_structure_witness :
    (process_body [] (create_node ((create_node initState "START" "start" none).2)
        ("If " ++ "x > 0" ++ "?") "decision" (some 1)).1
      (process_body [Stmt.assign [Target.name "y"] 1]
        (create_node ((create_node initState "START" "start" none).2)
          ("If " ++ "x > 0" ++ "?") "decision" (some 1)).1
        (add_edge (create_node ((create_node initState "START" "start" none).2)
            ("If " ++ "x > 0" ++ "?") "decision" (some 1)).2
          (create_node initState "START" "start" none).1
          (create_node ((create_node initState "START" "start" none).2)
            ("If " ++ "x > 0" ++ "?") "decision" (some 1)).1 "")).2).1 =
      (create_node ((create_node initState "START" "start" none).2)
        ("If " ++ "x > 0" ++ "?") "decision" (some 1)).1 :=
  ((if_merge_structure "x > 0" [Stmt.assign [Target.name "y"] 1] [] 1
      (create_node initState "START" "start" none).1
      (create_node initState "START" "start" none).2).2.2.2.2.2 rfl).1

end PyFlow
